import Mathlib

/-
  Verification of the AccessibleHealthcare repository's security/API core.

  Shallow embedding of:
  - src/lib/security/encryption.ts   (encrypt, decrypt, maskSensitiveData)
  - src/lib/storage/secure-storage.ts (SecureStorage.getItem / getObject, web path)
  - src/lib/utils/error-handlers.ts  (handleApiError)
  - src/lib/api/api-client.ts        (request interceptor, response interceptor,
                                      single-flight refresh protocol)

  JavaScript strings are Lean String, byte arrays are List Nat, and JS
  truthiness of strings is modelled explicitly (the empty string is falsy).
  The CryptoJS AES-CBC block cipher is an external library; it is abstracted
  as a pair of enc and dec functions together with the contract the library
  provides (round-trip, colon-free nonempty ciphertext encoding).
  Asynchronous concurrency (the single-flight refresh of the response
  interceptor) is modelled as an interleaving of run-to-completion segments
  of the single-threaded JS event loop.
-/

namespace HealthcareSpec

/-! ## JS-style helpers -/

/-- JS truthiness of an optional string: `undefined`, `null` and `""` are falsy. -/
def jsTruthyS : Option String → Bool
  | none => false
  | some s => s != ""

/-! ## Hex encoding (CryptoJS.enc.Hex / byte.toString(16).padStart(2, 0)) -/

/-- The hex digit character for a nibble, lowercase as produced by CryptoJS and
by Number.prototype.toString(16). Values at or above 16 are clamped (unused). -/
def hexDigitChar (n : Nat) : Char :=
  if n < 10 then Char.ofNat (48 + n) else if n < 16 then Char.ofNat (87 + n) else 'f'

/-- Numeric value of a hex digit character; non-hex characters give 0
(a modelling of parseInt junk, only exercised on invalid input). -/
def hexVal (c : Char) : Nat :=
  if 48 ≤ c.toNat ∧ c.toNat ≤ 57 then c.toNat - 48
  else if 97 ≤ c.toNat ∧ c.toNat ≤ 102 then c.toNat - 87
  else if 65 ≤ c.toNat ∧ c.toNat ≤ 70 then c.toNat - 55
  else 0

/-- One byte rendered as two hex characters, as in
`byte.toString(16).padStart(2, 0)` for bytes below 256. -/
def byteToHex (b : Nat) : List Char :=
  [hexDigitChar (b / 16), hexDigitChar (b % 16)]

/-- A byte list rendered as a hex string (`iv.toString(CryptoJS.enc.Hex)`). -/
def hexOfBytes (bs : List Nat) : String :=
  String.mk (bs.flatMap byteToHex)

/-- Hex parsing by pairs of characters (`CryptoJS.enc.Hex.parse`); a trailing
odd character is dropped, which never happens on well-formed input. -/
def hexParseBytes : List Char → List Nat
  | a :: b :: rest => (hexVal a * 16 + hexVal b) :: hexParseBytes rest
  | _ => []

/-! ## String splitting (JS String.prototype.split at a single character) -/

/-- JS `s.split(c)` on the character list of `s`: always returns a nonempty
list of (possibly empty) parts. -/
def splitOnChar (c : Char) : List Char → List (List Char)
  | [] => [[]]
  | a :: rest =>
      let ps := splitOnChar c rest
      if a = c then [] :: ps
      else
        match ps with
        | [] => [[a]]
        | p :: ps2 => (a :: p) :: ps2

/-! ## The AES-CBC primitive (CryptoJS, external library)

`CryptoJS.AES.encrypt(data, key, cfg).toString()` produces a Base64 string
(OpenSSL format) and `CryptoJS.AES.decrypt` inverts it under the same key and
iv. The library is not part of this repository, so it is abstracted: the pure
operations in `AesCbcOps`, and the contract the repository relies on in
`AesCbcOK` (decryption inverts encryption; the ciphertext encoding is
nonempty and colon-free since the Base64 alphabet has no colon, so the
`iv:ciphertext` framing splits unambiguously). -/

structure AesCbcOps where
  enc : String → String → List Nat → String
  dec : String → String → List Nat → Except Unit String
deriving Inhabited

/-- The contract CryptoJS provides for the enc/dec pair: data, key, iv to
ciphertext string, and back. -/
def AesCbcOK (C : AesCbcOps) : Prop :=
  (∀ (data key : String) (iv : List Nat), C.dec (C.enc data key iv) key iv = .ok data) ∧
  (∀ (data key : String) (iv : List Nat), ':' ∉ (C.enc data key iv).data) ∧
  (∀ (data key : String) (iv : List Nat), C.enc data key iv ≠ "")

/-! ## encryption.ts : encrypt / decrypt -/

/-- `encrypt` from src/lib/security/encryption.ts, with the process-lifetime
derived key and the 16 random bytes drawn by `CryptoJS.lib.WordArray.random(16)`
passed explicitly. Returns the combined string `ivHex ++ ":" ++ encryptedHex`. -/
def encrypt (C : AesCbcOps) (key : String) (iv : List Nat) (data : String) : String :=
  hexOfBytes iv ++ ":" ++ C.enc data key iv

/-- The errors the body of `decrypt` can raise before the outer catch:
the explicit invalid-format throw at encryption.ts:104, or a cipher/padding
failure inside CryptoJS. -/
inductive InnerErr where
  | invalidFormat
  | cipherFailure
deriving DecidableEq

/-- The try-block of `decrypt`: split on the colon, check both halves are
present and nonempty (`if (!ivHex || !encryptedHex) throw new Error(...)`),
parse the iv from hex and run AES-CBC decryption. The JS destructuring
`const [ivHex, encryptedHex] = encryptedData.split(':')` takes the first two
parts and drops the rest. -/
def decryptInner (C : AesCbcOps) (key : String) (encryptedData : String) :
    Except InnerErr String :=
  match (splitOnChar ':' encryptedData.data).map (fun l => String.mk l) with
  | ivHex :: encryptedHex :: _ =>
      if ivHex = "" ∨ encryptedHex = "" then .error .invalidFormat
      else
        match C.dec encryptedHex key (hexParseBytes ivHex.data) with
        | .ok plain => .ok plain
        | .error _ => .error .cipherFailure
  | _ => .error .invalidFormat

/-- `decrypt` from encryption.ts: the whole body is wrapped in a try/catch
whose catch clause throws `new Error` with message `Failed to decrypt data`,
regardless of which inner error occurred. The surfaced error is its message. -/
def decrypt (C : AesCbcOps) (key : String) (encryptedData : String) :
    Except String String :=
  match decryptInner C key encryptedData with
  | .ok v => .ok v
  | .error _ => .error "Failed to decrypt data"

/-- The format condition actually tested by decrypt: fewer than two
colon-separated fields, or an empty first or second field. -/
def badFormat (s : String) : Bool :=
  match (splitOnChar ':' s.data).map (fun l => String.mk l) with
  | a :: b :: _ => a == "" || b == ""
  | _ => true

/-! ## A concrete cipher witnessing the AesCbc contract

Used to instantiate theorems at concrete inputs. It escapes the colon and the
tilde so its output is colon-free, and prefixes a marker character so its
output is nonempty; it is a stand-in for CryptoJS, not a model of AES. -/

/-- Escape one character so the colon never appears in the output. -/
def escChar (c : Char) : List Char :=
  if c = ':' then ['~', 'c'] else if c = '~' then ['~', 't'] else [c]

/-- Inverse of character escaping. -/
def unesc : List Char → Option (List Char)
  | [] => some []
  | c :: r =>
      if c = '~' then
        match r with
        | 'c' :: r2 => (unesc r2).map (fun l => ':' :: l)
        | 't' :: r2 => (unesc r2).map (fun l => '~' :: l)
        | _ => none
      else (unesc r).map (fun l => c :: l)

/-- The stand-in enc: a marker character followed by the escaped plaintext. -/
def demoEnc (data : String) (_key : String) (_iv : List Nat) : String :=
  String.mk ('E' :: data.data.flatMap escChar)

/-- The stand-in dec: strip the marker and unescape. -/
def demoDec (ct : String) (_key : String) (_iv : List Nat) : Except Unit String :=
  match ct.data with
  | 'E' :: rest =>
      match unesc rest with
      | some l => .ok (String.mk l)
      | none => .error ()
  | _ => .error ()

def demoCipher : AesCbcOps :=
  { enc := demoEnc, dec := demoDec }

/-! ## secure-storage.ts : SecureStorage (web fallback path)

On web, `setItem` writes `encrypt(value)` into AsyncStorage under the key
`medical_app_secure_ ++ key` and `getItem` reads it back through `decrypt`.
AsyncStorage is modelled as an association list. The whole body of `getItem`
(and of `getObject`) is wrapped in try/catch returning null on any error. -/

/-- AsyncStorage.getItem: first matching binding, or null. -/
def assocLookup (st : List (String × String)) (k : String) : Option String :=
  match st with
  | [] => none
  | (k2, v) :: rest => if k2 = k then some v else assocLookup rest k

/-- `SecureStorage.getItem` (web branch): look up the prefixed key; a missing
or empty stored value is null (`if (!encryptedValue) return null`); a
decryption failure is caught and returns null. -/
def SecureStorage.getItem (C : AesCbcOps) (ckey : String)
    (st : List (String × String)) (key : String) : Option String :=
  match assocLookup st ("medical_app_secure_" ++ key) with
  | none => none
  | some encryptedValue =>
      if encryptedValue = "" then none
      else
        match decrypt C ckey encryptedValue with
        | .ok v => some v
        | .error _ => none

/-- `SecureStorage.getObject`: `jsonValue ? JSON.parse(jsonValue) : null`
inside a try/catch that returns null when JSON.parse throws. The JSON parser
is external; it is abstracted as `parse`, with `none` modelling a throw. -/
def SecureStorage.getObject {α : Type} (parse : String → Option α)
    (C : AesCbcOps) (ckey : String) (st : List (String × String)) (key : String) :
    Option α :=
  match SecureStorage.getItem C ckey st key with
  | none => none
  | some jsonValue =>
      if jsonValue = "" then none
      else
        match parse jsonValue with
        | some v => some v
        | none => none

/-! ## error-handlers.ts : handleApiError

The normalized error object. `errors` is the validation-errors object,
modelled as a field map. -/

structure ApiError where
  status : Nat
  code : String
  message : String
  errors : Option (List (String × String))
deriving DecidableEq

/-- A JS value that may or may not be a string (for `responseData.error`,
which the source tests with typeof). Nonempty strings and non-strings are
truthy; the empty string is falsy. -/
inductive JsStrVal where
  | str (s : String)
  | nonstr
deriving DecidableEq

/-- Truthiness of `responseData.error`; a non-string object is truthy. -/
def jsTruthyV : Option JsStrVal → Bool
  | none => false
  | some (.str s) => s != ""
  | some .nonstr => true

/-- The body of an error response, `axiosError.response.data`. -/
structure RespData where
  code : Option String
  error : Option JsStrVal
  message : Option String
  errors : Option (List (String × String))
deriving DecidableEq

/-- `axiosError.response`: HTTP status plus optional body
(`data` is `none` when the body is null, undefined or empty). -/
structure RespShape where
  status : Nat
  data : Option RespData
deriving DecidableEq

/-- The fields of a plain object passed as an error, for the
`Object.assign(apiError, error)` branch: present fields override. -/
structure ErrOverrides where
  status : Option Nat
  code : Option String
  message : Option String
  errors : Option (List (String × String))
deriving DecidableEq

/-- The shape of a value reaching `handleApiError`: an axios error
(response / request / code), a JS Error instance, a plain object, or
something else (all fields off). `configRetry` is `error.config._retry`. -/
structure ErrShape where
  isAxiosError : Bool
  response : Option RespShape
  hasRequest : Bool
  axiosCode : Option String
  isErrorInstance : Bool
  message : String
  configRetry : Bool
  overrides : Option ErrOverrides
deriving DecidableEq

def ErrShape.respStatus (e : ErrShape) : Option Nat :=
  e.response.map RespShape.status

/-- `Object.assign(apiError, error)`: own properties of the source override. -/
def applyOverrides (a : ApiError) (o : ErrOverrides) : ApiError :=
  { status := o.status.getD a.status,
    code := o.code.getD a.code,
    message := o.message.getD a.message,
    errors := match o.errors with | some es => some es | none => a.errors }

/-- `getDefaultMessageForStatus` from error-handlers.ts (the 403 message has
its apostrophe elided, which no claim depends on). -/
def getDefaultMessageForStatus (status : Nat) : String :=
  if status = 400 then "The request was invalid. Please check your information and try again."
  else if status = 401 then "You need to be logged in to access this. Please log in and try again."
  else if status = 403 then "You dont have permission to access this resource."
  else if status = 404 then "The requested information could not be found."
  else if status = 408 ∨ status = 504 then "The server took too long to respond. Please try again later."
  else if status = 409 then "There was a conflict with the current state of the resource."
  else if status = 422 then "The provided information could not be processed."
  else if status = 429 then "Too many requests. Please try again later."
  else if status = 500 ∨ status = 502 ∨ status = 503 then "The server encountered an error. Please try again later."
  else "An unexpected error occurred. Please try again."

/-- `handleApiError` from error-handlers.ts, ported statement by statement.
The regex-based `sanitizeErrorMessage` is an external text transformation and
is passed in as `san`; it touches only the message, never the code. -/
def handleApiError (san : String → String) (error : ErrShape) : ApiError :=
  let apiError : ApiError :=
    { status := 500, code := "UNKNOWN_ERROR",
      message := "An unexpected error occurred while communicating with the server.",
      errors := none }
  let apiError :=
    if error.isAxiosError then
      let apiError :=
        match error.response with
        | some resp =>
            let apiError := { apiError with status := resp.status }
            let apiError :=
              match resp.data with
              | some rd =>
                  let apiError :=
                    if jsTruthyS rd.code then { apiError with code := rd.code.getD "" }
                    else
                      match rd.error with
                      | some (.str s) => if s ≠ "" then { apiError with code := s } else apiError
                      | some .nonstr => { apiError with code := "API_ERROR" }
                      | none => apiError
                  let apiError :=
                    if jsTruthyS rd.message then { apiError with message := rd.message.getD "" }
                    else
                      match rd.error with
                      | some (.str s) => if s ≠ "" then { apiError with message := s } else apiError
                      | _ => apiError
                  let apiError :=
                    match rd.errors with
                    | some es => { apiError with errors := some es }
                    | none => apiError
                  apiError
              | none => apiError
            if apiError.message = "" ∨ apiError.message = apiError.code then
              { apiError with message := getDefaultMessageForStatus apiError.status }
            else apiError
        | none =>
            if error.hasRequest then
              { apiError with
                  status := 0
                  code := "NETWORK_ERROR"
                  message := "Network error. Please check your internet connection." }
            else apiError
      if apiError.code = "" then
        { apiError with code :=
            if jsTruthyS error.axiosCode then error.axiosCode.getD "" else "API_ERROR" }
      else apiError
    else if error.isErrorInstance then
      { apiError with code := "CLIENT_ERROR", message := error.message }
    else
      match error.overrides with
      | some ov => applyOverrides apiError ov
      | none => apiError
  { apiError with message := san apiError.message }

/-- A concrete sanitizer for instantiating theorems: the identity (none of
the messages exercised here match any redaction pattern). -/
def sanitizeId : String → String := fun s => s

/-- The distinguished error rejected by the response interceptor when the
token refresh fails (api-client.ts:107-111). -/
def authRequiredError : ApiError :=
  { status := 401, code := "AUTH_REQUIRED",
    message := "Authentication required. Please log in again.", errors := none }

/-! ## api-client.ts : request interceptor -/

/-- `config.environment` from core/constants/config.ts (development default).
This is what the request interceptor was evidently meant to read. -/
structure EnvInfo where
  name : String
  debug : Bool
  version : String
  buildNumber : String
deriving DecidableEq

def appConfigEnvironment : EnvInfo :=
  { name := "development", debug := true, version := "1.0.0", buildNumber := "1" }

/-- An axios request config as seen by the interceptor. Axios request configs
carry no `environment` property, so that field is `none` for every request
the client builds; it exists because the interceptor's `config` parameter
shadows the imported config module, making `config.environment` resolve to
this (absent) property instead of the module. -/
structure ReqConfig where
  headers : Option (List (String × String))
  environment : Option EnvInfo
  _retry : Bool
deriving DecidableEq

/-- A JS exception: a plain `new Error(message)` or a TypeError raised by a
property access on undefined (engine wording varies; the message is a model). -/
inductive JsError where
  | plain (message : String)
  | typeError (message : String)
deriving DecidableEq

/-- The default headers installed by `axios.create` in api-client.ts. -/
def defaultHeaders : List (String × String) :=
  [("Content-Type", "application/json"), ("Accept", "application/json")]

/-- JS object property assignment on a header map. -/
def setHeader (hs : List (String × String)) (k v : String) : List (String × String) :=
  if hs.any (fun p => p.1 == k) then hs.map (fun p => if p.1 == k then (k, v) else p)
  else hs ++ [(k, v)]

/-- The request interceptor of api-client.ts (lines 23-57). `connected` is
the NetInfo fetch result; `authToken` and `userId` are the results of
`secureStore.getItem` for `auth_token` and `user_id` (getItem never throws,
it resolves null on failure). The compliance-header block evaluates
`config.environment.version` where `config` is the shadowing parameter, so
when the request config has headers and no `environment` property the access
throws a TypeError and the returned promise rejects. -/
def requestInterceptor (connected : Bool) (authToken userId : Option String)
    (config : ReqConfig) : Except JsError ReqConfig :=
  if connected = false then .error (.plain "No network connection available")
  else
    let config :=
      match config.headers with
      | some hs =>
          if jsTruthyS authToken then
            { config with
                headers := some (setHeader hs "Authorization" ("Bearer " ++ authToken.getD "")) }
          else config
      | none => config
    match config.headers with
    | some hs =>
        match config.environment with
        | none => .error (.typeError "Cannot read properties of undefined (reading version)")
        | some env =>
            let hs := setHeader hs "X-App-Version" env.version
            let hs := if jsTruthyS userId then setHeader hs "X-User-ID" (userId.getD "") else hs
            .ok { config with headers := some hs }
    | none => .ok config

/-- The shape a request-interceptor exception has when it reaches the
response interceptor's rejection handler: a JS Error instance, not an axios
error, with no response and no request. -/
def errOfJs (j : JsError) (retry : Bool) : ErrShape :=
  { isAxiosError := false, response := none, hasRequest := false, axiosCode := none,
    isErrorInstance := true,
    message := match j with | .plain m => m | .typeError m => m,
    configRetry := retry, overrides := none }

/-- The branch decision of the response interceptor's rejection handler
(api-client.ts:70-120): `error.response?.status === 401 && !_retry` enters
the single-flight refresh protocol (modelled separately as a step machine);
every other error is normalized by `handleApiError` and rejected, with no
credential-store operation. -/
inductive RejOutcome where
  | enterRefresh
  | rejectNormalized (e : ApiError)
deriving DecidableEq

def onRejected (san : String → String) (error : ErrShape) : RejOutcome :=
  if error.respStatus = some 401 ∧ error.configRetry = false then .enterRefresh
  else .rejectNormalized (handleApiError san error)

/-- The fate of one outbound request up to dispatch: the request interceptor
either passes the (mutated) config to the transport, or its exception flows
down the promise chain into the rejection handler and is surfaced. -/
inductive PipeOutcome where
  | dispatched (cfg : ReqConfig)
  | failedFast (e : ApiError)
  | refreshProtocol
deriving DecidableEq

def runPipeline (san : String → String) (connected : Bool)
    (authToken userId : Option String) (cfg : ReqConfig) : PipeOutcome :=
  match requestInterceptor connected authToken userId cfg with
  | .ok cfg2 => .dispatched cfg2
  | .error jsErr =>
      match onRejected san (errOfJs jsErr cfg._retry) with
      | .enterRefresh => .refreshProtocol
      | .rejectNormalized e => .failedFast e

/-! ## api-client.ts : single-flight refresh step machine

The 401 branch of the response interceptor (lines 74-115) together with the
module-level `isRefreshingToken` / `tokenRefreshPromise` flags, as a
transition system. Each transition is one run-to-completion segment of the
JS event loop (code between two await points); an external `resolve` action
models the refresh HTTP call settling. Each thread is one request that
received a 401. The catch clause's two `await secureStore.deleteItem` calls
are two further segments (`deletingAuth`, `deletingRefresh`), after which the
finally clause clears the flags and the promise rejects with
`authRequiredError`. -/

inductive RefreshResult where
  | ok (token : String)
  | failed
deriving DecidableEq

inductive Phase where
  /-- the 401 handler is queued but its prologue has not run -/
  | ready
  /-- suspended at the leader's `await tokenRefreshPromise` (line 92) -/
  | leaderWait (pid : Nat)
  /-- suspended at the follower's `await tokenRefreshPromise` (line 81);
  `none` models awaiting a null promise -/
  | followerWait (pid : Option Nat)
  /-- in the catch clause, deleting `auth_token` (line 103) -/
  | deletingAuth
  /-- in the catch clause, deleting `refresh_token` (line 104) -/
  | deletingRefresh
  /-- replayed via `apiClient(originalRequest)` with the new token -/
  | replayed (token : String)
  /-- rejected with `authRequiredError` after the finally clause ran -/
  | authRequired
deriving DecidableEq

structure Thread where
  /-- `originalRequest.headers` is non-null; true for every request built by
  the axios instance, whose defaults install Content-Type and Accept -/
  hasHeaders : Bool
  /-- `originalRequest._retry` -/
  _retry : Bool
  phase : Phase
deriving DecidableEq

/-- Which of the two token secrets are currently present in the store. -/
structure TokenStore where
  auth : Bool
  refresh : Bool
deriving DecidableEq

structure GState where
  isRefreshingToken : Bool
  tokenRefreshPromise : Option Nat
  /-- number of `refreshToken()` invocations; each one issues exactly one
  POST to `/auth/refresh-token` when a refresh token is stored -/
  refreshCount : Nat
  nextPid : Nat
  /-- settled promises with their results -/
  resolutions : List (Nat × RefreshResult)
  store : TokenStore
deriving DecidableEq

structure ClientState where
  g : GState
  threads : List Thread
deriving DecidableEq

def lookupRes (rs : List (Nat × RefreshResult)) (p : Nat) : Option RefreshResult :=
  match rs with
  | [] => none
  | (q, r) :: rest => if q = p then some r else lookupRes rest p

/-- One run-to-completion segment of one request's 401 handler.

ready: line 76 sets `_retry = true`; then line 80 reads the flag. If a
refresh is outstanding the thread suspends awaiting the shared promise
(follower); otherwise lines 89-90 set the flag, invoke `refreshToken()`
(counted) and suspend awaiting it (leader).

leaderWait: resumes when the promise settles. Success: set the
Authorization header, start the replay, and the finally clause clears both
flags (one synchronous segment, lines 95-99 and 112-114). Failure: enter the
catch clause and suspend at the first deleteItem.

followerWait: success with a truthy token and non-null headers replays and
runs the same finally clause; a falsy token (or missing headers) falls
through to the leader code at line 89 and starts a second refresh; a null
promise awaits to null and likewise falls through. Failure: the catch clause.

deletingAuth / deletingRefresh: the two awaited deletions; the second
segment also runs the finally clause and rejects with `authRequiredError`. -/
def stepThread (g : GState) (t : Thread) : GState × Thread :=
  match t.phase with
  | .ready =>
      let t := { t with _retry := true }
      if g.isRefreshingToken then
        (g, { t with phase := .followerWait g.tokenRefreshPromise })
      else
        ({ g with
            isRefreshingToken := true
            tokenRefreshPromise := some g.nextPid
            refreshCount := g.refreshCount + 1
            nextPid := g.nextPid + 1 },
         { t with phase := .leaderWait g.nextPid })
  | .leaderWait p =>
      match lookupRes g.resolutions p with
      | none => (g, t)
      | some (.ok tok) =>
          ({ g with isRefreshingToken := false, tokenRefreshPromise := none },
           { t with phase := .replayed tok })
      | some .failed => (g, { t with phase := .deletingAuth })
  | .followerWait none =>
      ({ g with
          isRefreshingToken := true
          tokenRefreshPromise := some g.nextPid
          refreshCount := g.refreshCount + 1
          nextPid := g.nextPid + 1 },
       { t with phase := .leaderWait g.nextPid })
  | .followerWait (some p) =>
      match lookupRes g.resolutions p with
      | none => (g, t)
      | some (.ok tok) =>
          if tok ≠ "" ∧ t.hasHeaders = true then
            ({ g with isRefreshingToken := false, tokenRefreshPromise := none },
             { t with phase := .replayed tok })
          else
            ({ g with
                isRefreshingToken := true
                tokenRefreshPromise := some g.nextPid
                refreshCount := g.refreshCount + 1
                nextPid := g.nextPid + 1 },
             { t with phase := .leaderWait g.nextPid })
      | some .failed => (g, { t with phase := .deletingAuth })
  | .deletingAuth =>
      ({ g with store := { g.store with auth := false } },
       { t with phase := .deletingRefresh })
  | .deletingRefresh =>
      ({ g with
          store := { g.store with refresh := false }
          isRefreshingToken := false
          tokenRefreshPromise := none },
       { t with phase := .authRequired })
  | .replayed _ => (g, t)
  | .authRequired => (g, t)

/-- A scheduler action: run one segment of thread `i` (a no-op if the thread
is blocked on an unsettled promise or finished), or settle an outstanding
refresh promise with a result. `refreshToken()` writes the new token into
the store (`setItem` at api-client.ts:146) before its promise resolves. -/
inductive Action where
  | run (i : Nat)
  | resolve (p : Nat) (r : RefreshResult)
deriving DecidableEq

def step (s : ClientState) (a : Action) : ClientState :=
  match a with
  | .run i =>
      match s.threads.get? i with
      | none => s
      | some t =>
          let gt := stepThread s.g t
          { g := gt.1, threads := s.threads.set i gt.2 }
  | .resolve p r =>
      if p < s.g.nextPid ∧ lookupRes s.g.resolutions p = none then
        { s with
            g := { s.g with
              resolutions := (p, r) :: s.g.resolutions
              store := match r with
                | .ok _ => { s.g.store with auth := true }
                | .failed => s.g.store } }
      else s

def exec (s : ClientState) : List Action → ClientState
  | [] => s
  | a :: rest => exec (step s a) rest

/-- A fresh request observing the stale-token 401: headers present (the axios
instance always installs defaults), `_retry` unset, handler queued. -/
def initThread : Thread :=
  { hasHeaders := true, _retry := false, phase := .ready }

def initG : GState :=
  { isRefreshingToken := false, tokenRefreshPromise := none, refreshCount := 0,
    nextPid := 0, resolutions := [], store := { auth := true, refresh := true } }

/-- `n` concurrent requests that each received a 401 while holding the same
stale token, before any handler has run. -/
def initState (n : Nat) : ClientState :=
  { g := initG, threads := List.replicate n initThread }

def isDone : Phase → Bool
  | .replayed _ => true
  | .authRequired => true
  | _ => false

def allDone (ts : List Thread) : Bool :=
  ts.all fun t => isDone t.phase

def noReady (ts : List Thread) : Bool :=
  ts.all fun t => t.phase != Phase.ready

/-- Schedules in which the refresh call settles only after every request has
entered its 401 handler: the formalization of all N requests observing the
401 concurrently, while the refresh is outstanding. -/
def goodSched : ClientState → List Action → Bool
  | _, [] => true
  | s, Action.run i :: rest => goodSched (step s (.run i)) rest
  | s, Action.resolve p r :: rest => noReady s.threads && goodSched (step s (.resolve p r)) rest

/-- Every successful refresh result carries a nonempty token (a server that
returns a token returns a nonempty one). -/
def tokensNonempty : List Action → Bool
  | [] => true
  | Action.resolve _ (RefreshResult.ok tok) :: rest => (tok != "") && tokensNonempty rest
  | _ :: rest => tokensNonempty rest

/-! ### Reachability invariant of the machine -/

def PhaseIn1 (p : Phase) : Prop :=
  p = .ready ∨ p = .leaderWait 0 ∨ p = .followerWait (some 0)

def PhaseIn2ok (tok : String) (p : Phase) : Prop :=
  p = .leaderWait 0 ∨ p = .followerWait (some 0) ∨ p = .replayed tok

def PhaseIn2err (p : Phase) : Prop :=
  p = .leaderWait 0 ∨ p = .followerWait (some 0) ∨ p = .deletingAuth ∨
  p = .deletingRefresh ∨ p = .authRequired

/-- Before any refresh started. -/
def Stage0 (s : ClientState) : Prop :=
  s.g.isRefreshingToken = false ∧ s.g.tokenRefreshPromise = none ∧
  s.g.refreshCount = 0 ∧ s.g.nextPid = 0 ∧ s.g.resolutions = [] ∧
  s.g.store.auth = true ∧ s.g.store.refresh = true ∧
  ∀ t ∈ s.threads, t.phase = Phase.ready

/-- The single refresh is outstanding. -/
def Stage1 (s : ClientState) : Prop :=
  s.g.isRefreshingToken = true ∧ s.g.tokenRefreshPromise = some 0 ∧
  s.g.refreshCount = 1 ∧ s.g.nextPid = 1 ∧ s.g.resolutions = [] ∧
  s.g.store.auth = true ∧ s.g.store.refresh = true ∧
  ∀ t ∈ s.threads, PhaseIn1 t.phase

/-- The single refresh succeeded with token `tok`. -/
def Stage2ok (tok : String) (s : ClientState) : Prop :=
  s.g.refreshCount = 1 ∧ s.g.nextPid = 1 ∧
  s.g.resolutions = [(0, .ok tok)] ∧
  s.g.store.auth = true ∧ s.g.store.refresh = true ∧
  ∀ t ∈ s.threads, PhaseIn2ok tok t.phase

/-- The single refresh failed. -/
def Stage2err (s : ClientState) : Prop :=
  s.g.refreshCount = 1 ∧ s.g.nextPid = 1 ∧
  s.g.resolutions = [(0, .failed)] ∧
  (∀ t ∈ s.threads, PhaseIn2err t.phase) ∧
  ((∃ t ∈ s.threads, t.phase = Phase.deletingRefresh ∨ t.phase = Phase.authRequired) →
      s.g.store.auth = false) ∧
  ((∃ t ∈ s.threads, t.phase = Phase.authRequired) →
      s.g.store.refresh = false ∧ s.g.isRefreshingToken = false ∧
      s.g.tokenRefreshPromise = none)

def Inv (n : Nat) (s : ClientState) : Prop :=
  s.threads.length = n ∧ (∀ t ∈ s.threads, t.hasHeaders = true) ∧
  (Stage0 s ∨ Stage1 s ∨ (∃ tok, tok ≠ "" ∧ Stage2ok tok s) ∨ Stage2err s)

/-! ## encryption.ts : maskSensitiveData -/

/-- JS `s.slice(-n)` for a nonnegative n: for `n = 0` this is `s.slice(0)`,
the whole string (JS has `-0 === 0`); otherwise the last `min n len`
characters. -/
def jsSliceNeg (s : String) (n : Nat) : String :=
  if n = 0 then s else String.mk (s.data.drop (s.length - n))

/-- `maskSensitiveData` from encryption.ts (the source default for
`visibleChars` is 4; it is passed explicitly here). -/
def maskSensitiveData (value : String) (visibleChars : Nat) : String :=
  if value = "" then ""
  else if value.length ≤ visibleChars then value
  else
    let visible := jsSliceNeg value visibleChars
    let masked := String.mk (List.replicate (value.length - visibleChars) '*')
    masked ++ visible

/-- A concrete schedule for two concurrent 401s with a successful refresh:
both handlers run (leader then follower), the refresh settles with a token,
and both threads resume and replay. -/
def demoSchedOk : List Action :=
  [Action.run 0, Action.run 1, Action.resolve 0 (RefreshResult.ok "tok"),
   Action.run 0, Action.run 1]

/-- A concrete schedule for two concurrent 401s with a failing refresh: both
handlers run, the refresh fails, and both threads walk the catch clause. -/
def demoSchedFail : List Action :=
  [Action.run 0, Action.run 1, Action.resolve 0 RefreshResult.failed,
   Action.run 0, Action.run 0, Action.run 0,
   Action.run 1, Action.run 1, Action.run 1]

/-! # Theorems -/

/-! ## Hex and splitting lemmas -/

theorem hexVal_hexDigitChar {n : Nat} (h : n < 16) : hexVal (hexDigitChar n) = n := by
  interval_cases n <;> decide

theorem hexDigitChar_ne_colon (n : Nat) : hexDigitChar n ≠ ':' := by
  unfold hexDigitChar
  split
  · next h => interval_cases n <;> decide
  · split
    · next h h2 => interval_cases n <;> decide
    · decide

theorem hexParseBytes_hexOfBytes (bs : List Nat) (h : ∀ b ∈ bs, b < 256) :
    hexParseBytes (hexOfBytes bs).data = bs := by
  induction bs with
  | nil => rfl
  | cons b rest ih =>
      have hb : b < 256 := h b (List.mem_cons_self b rest)
      have hdiv : b / 16 < 16 := by omega
      have hmod : b % 16 < 16 := Nat.mod_lt _ (by norm_num)
      have hrest : hexParseBytes (hexOfBytes rest).data = rest :=
        ih (fun x hx => h x (List.mem_cons_of_mem b hx))
      simp only [hexOfBytes, List.flatMap_cons] at *
      simp only [byteToHex, List.append_assoc, List.cons_append, List.nil_append]
      simp only [hexParseBytes, hexVal_hexDigitChar hdiv, hexVal_hexDigitChar hmod]
      have hbeq : b / 16 * 16 + b % 16 = b := by omega
      rw [hbeq, hrest]

theorem length_hexOfBytes_data (bs : List Nat) :
    (hexOfBytes bs).data.length = 2 * bs.length := by
  induction bs with
  | nil => rfl
  | cons b rest ih =>
      simp only [hexOfBytes, List.flatMap_cons, byteToHex] at *
      simp only [List.length_append, List.length_cons, List.length_nil] at *
      omega

theorem colon_not_mem_hexOfBytes (bs : List Nat) : ':' ∉ (hexOfBytes bs).data := by
  intro hmem
  simp only [hexOfBytes] at hmem
  rcases List.mem_flatMap.mp hmem with ⟨b, _, hb⟩
  simp only [byteToHex, List.mem_cons, List.mem_singleton] at hb
  rcases hb with h | h | h
  · exact hexDigitChar_ne_colon _ h.symm
  · exact hexDigitChar_ne_colon _ h.symm
  · exact List.not_mem_nil ':' h

theorem splitOnChar_ne_nil (c : Char) (l : List Char) : splitOnChar c l ≠ [] := by
  cases l with
  | nil => simp [splitOnChar]
  | cons a rest =>
      simp only [splitOnChar]
      split
      · simp
      · split <;> simp_all

theorem splitOnChar_of_not_mem {c : Char} {l : List Char} (h : c ∉ l) :
    splitOnChar c l = [l] := by
  induction l with
  | nil => rfl
  | cons a rest ih =>
      have hac : a ≠ c := fun hh => h (hh ▸ List.mem_cons_self a rest)
      have hrest : c ∉ rest := fun hh => h (List.mem_cons_of_mem a hh)
      simp only [splitOnChar, if_neg hac, ih hrest]

theorem splitOnChar_append {c : Char} {l r : List Char} (h : c ∉ l) :
    splitOnChar c (l ++ c :: r) = l :: splitOnChar c r := by
  induction l with
  | nil => simp [splitOnChar]
  | cons a rest ih =>
      have hac : a ≠ c := fun hh => h (hh ▸ List.mem_cons_self a rest)
      have hrest : c ∉ rest := fun hh => h (List.mem_cons_of_mem a hh)
      simp only [List.cons_append, splitOnChar, if_neg hac]
      rw [show rest.append (c :: r) = rest ++ c :: r from rfl, ih hrest]

/-! ## The demo cipher satisfies the CryptoJS contract -/

theorem unesc_escChar (l : List Char) : unesc (l.flatMap escChar) = some l := by
  induction l with
  | nil => rfl
  | cons c rest ih =>
      by_cases hc : c = ':'
      · subst hc
        have hflat : (':' :: rest).flatMap escChar = '~' :: 'c' :: rest.flatMap escChar := by
          simp [escChar]
        rw [hflat, show unesc ('~' :: 'c' :: rest.flatMap escChar) =
          (unesc (rest.flatMap escChar)).map (fun l => ':' :: l) from rfl, ih]
        rfl
      · by_cases ht : c = '~'
        · subst ht
          have hflat : ('~' :: rest).flatMap escChar = '~' :: 't' :: rest.flatMap escChar := by
            simp [escChar]
          rw [hflat, show unesc ('~' :: 't' :: rest.flatMap escChar) =
            (unesc (rest.flatMap escChar)).map (fun l => '~' :: l) from rfl, ih]
          rfl
        · have hflat : (c :: rest).flatMap escChar = c :: rest.flatMap escChar := by
            simp [escChar, hc, ht]
          rw [hflat]
          unfold unesc
          rw [if_neg ht, ih]
          rfl

theorem colon_not_mem_escChar (c : Char) : ':' ∉ escChar c := by
  by_cases h1 : c = ':'
  · subst h1; decide
  · by_cases h2 : c = '~'
    · subst h2; decide
    · simp only [escChar, if_neg h1, if_neg h2, List.mem_singleton]
      exact fun hh => h1 hh.symm

theorem demoCipher_ok : AesCbcOK demoCipher := by
  refine ⟨?_, ?_, ?_⟩
  · intro data key iv
    have h1 : demoCipher.dec (demoCipher.enc data key iv) key iv =
        match unesc (data.data.flatMap escChar) with
        | some l => .ok (String.mk l)
        | none => .error () := rfl
    rw [h1, unesc_escChar]
  · intro data key iv hmem
    have hmem2 : ':' ∈ 'E' :: data.data.flatMap escChar := hmem
    rcases List.mem_cons.mp hmem2 with h | h
    · exact absurd h (by decide)
    · rcases List.mem_flatMap.mp h with ⟨c, _, hc⟩
      exact colon_not_mem_escChar c hc
  · intro data key iv h
    have h2 : ('E' :: data.data.flatMap escChar) = ([] : List Char) :=
      congrArg String.data h
    exact List.cons_ne_nil _ _ h2

/-! ## Crypto claims -/

theorem encrypt_data_eq (C : AesCbcOps) (key : String) (iv : List Nat) (data : String) :
    (encrypt C key iv data).data =
      (hexOfBytes iv).data ++ ':' :: (C.enc data key iv).data := by
  unfold encrypt
  rw [String.data_append, String.data_append]
  simp [List.append_assoc]

theorem split_encrypt (C : AesCbcOps) (hC : AesCbcOK C) (key : String) (iv : List Nat)
    (data : String) :
    splitOnChar ':' (encrypt C key iv data).data =
      [(hexOfBytes iv).data, (C.enc data key iv).data] := by
  rw [encrypt_data_eq, splitOnChar_append (colon_not_mem_hexOfBytes iv),
    splitOnChar_of_not_mem (hC.2.1 data key iv)]

/-- C6: for every string, decrypting the result of encrypting it under the
same process-lifetime derived key returns the string:
decrypt(encrypt(s)) = s, for any cipher satisfying the CryptoJS contract and
the 16 fresh random bytes drawn for the iv. -/
theorem encrypt_decrypt_round_trip (C : AesCbcOps) (hC : AesCbcOK C) (key : String)
    (iv : List Nat) (data : String) (hlen : iv.length = 16)
    (hbytes : ∀ b ∈ iv, b < 256) :
    decrypt C key (encrypt C key iv data) = .ok data := by
  have hivne : hexOfBytes iv ≠ "" := by
    intro h
    have h2 := congrArg String.data h
    have h3 := length_hexOfBytes_data iv
    rw [h2] at h3
    simp [hlen] at h3
  have hencne : C.enc data key iv ≠ "" := hC.2.2 data key iv
  have hinner : decryptInner C key (encrypt C key iv data) = .ok data := by
    unfold decryptInner
    rw [split_encrypt C hC key iv data]
    simp only [List.map_cons, List.map_nil]
    have hmk1 : String.mk (hexOfBytes iv).data = hexOfBytes iv := rfl
    have hmk2 : String.mk (C.enc data key iv).data = C.enc data key iv := rfl
    rw [hmk1, hmk2, if_neg (by
      intro h
      rcases h with h | h
      · exact hivne h
      · exact hencne h)]
    rw [hexParseBytes_hexOfBytes iv hbytes, hC.1 data key iv]
  unfold decrypt
  rw [hinner]

/-- C6 witness: the round-trip at a concrete cipher, key, iv and plaintext. -/
theorem encrypt_decrypt_round_trip_witness :
    AesCbcOK demoCipher ∧ (List.replicate 16 0).length = 16 ∧
    (∀ b ∈ List.replicate 16 0, b < 256) ∧
    decrypt demoCipher "k" (encrypt demoCipher "k" (List.replicate 16 0) "hello") =
      .ok "hello" :=
  ⟨demoCipher_ok, by decide, by decide,
   encrypt_decrypt_round_trip demoCipher demoCipher_ok "k" (List.replicate 16 0)
     "hello" (by decide) (by decide)⟩

/-- C7: every call to encrypt draws a fresh 16-byte random iv, and under
distinct random draws the `iv:ciphertext` outputs for the same plaintext are
never equal, because the two 32-character hex prefixes differ; equal
plaintexts are not revealed as equal. -/
theorem encrypt_iv_fresh_distinct (C : AesCbcOps) (key data : String)
    (iv1 iv2 : List Nat) (h1 : iv1.length = 16) (h2 : iv2.length = 16)
    (hb1 : ∀ b ∈ iv1, b < 256) (hb2 : ∀ b ∈ iv2, b < 256) (hne : iv1 ≠ iv2) :
    encrypt C key iv1 data ≠ encrypt C key iv2 data := by
  intro h
  have hd := congrArg String.data h
  rw [encrypt_data_eq, encrypt_data_eq] at hd
  have hlen : (hexOfBytes iv1).data.length = (hexOfBytes iv2).data.length := by
    rw [length_hexOfBytes_data, length_hexOfBytes_data, h1, h2]
  have hpre := (List.append_inj hd hlen).1
  have hiv : iv1 = iv2 := by
    rw [← hexParseBytes_hexOfBytes iv1 hb1, ← hexParseBytes_hexOfBytes iv2 hb2, hpre]
  exact hne hiv

/-- C7 witness: two concrete distinct 16-byte draws give distinct outputs. -/
theorem encrypt_iv_fresh_distinct_witness :
    (List.replicate 16 0).length = 16 ∧ (1 :: List.replicate 15 0).length = 16 ∧
    (List.replicate 16 0 : List Nat) ≠ 1 :: List.replicate 15 0 ∧
    encrypt demoCipher "k" (List.replicate 16 0) "secret" ≠
      encrypt demoCipher "k" (1 :: List.replicate 15 0) "secret" :=
  ⟨by decide, by decide, by decide,
   encrypt_iv_fresh_distinct demoCipher "k" "secret" (List.replicate 16 0)
     (1 :: List.replicate 15 0) (by decide) (by decide) (by decide) (by decide)
     (by decide)⟩

/-- C8 counterexample: on an input with no separator, the error surfaced by
decrypt is the generic catch-all message, not the distinguished invalid
format message: the inner invalid-format throw is swallowed by the outer
catch at encryption.ts:119-122. -/
theorem decrypt_invalid_format_counterexample :
    decrypt demoCipher "key" "abc" = .error "Failed to decrypt data" ∧
    ("Failed to decrypt data" : String) ≠ "Invalid encrypted data format" :=
  ⟨rfl, by decide⟩

/-- C8 amended: for every input in which the first or second colon-separated
field is missing or empty (which covers a missing separator and an empty half
before or after the first colon), the try-block raises the distinguished
InvalidFormat error, but the error decrypt surfaces to its caller is the
generic DecryptionError, because the outer catch rethrows every inner error
as `Failed to decrypt data`. -/
theorem decrypt_invalid_format_amended (C : AesCbcOps) (key s : String)
    (h : badFormat s = true) :
    decryptInner C key s = .error InnerErr.invalidFormat ∧
    decrypt C key s = .error "Failed to decrypt data" := by
  have hinner : decryptInner C key s = .error InnerErr.invalidFormat := by
    unfold decryptInner
    unfold badFormat at h
    rcases hps : (splitOnChar ':' s.data).map (fun l => String.mk l) with _ | ⟨a, _ | ⟨b, rest⟩⟩
    · rfl
    · rfl
    · rw [hps] at h
      have hab : a = "" ∨ b = "" := by
        rcases Bool.or_eq_true_iff.mp h with h2 | h2
        · exact Or.inl (eq_of_beq h2)
        · exact Or.inr (eq_of_beq h2)
      show (if a = "" ∨ b = "" then (Except.error InnerErr.invalidFormat : Except InnerErr String)
            else match C.dec b key (hexParseBytes a.data) with
              | .ok plain => .ok plain
              | .error _ => .error .cipherFailure) = .error .invalidFormat
      rw [if_pos hab]
  refine ⟨hinner, ?_⟩
  unfold decrypt
  rw [hinner]

/-- C8 amended witness: the condition and both conclusions at concrete input. -/
theorem decrypt_invalid_format_amended_witness :
    badFormat "abc" = true ∧
    decryptInner demoCipher "key" "abc" = .error InnerErr.invalidFormat ∧
    decrypt demoCipher "key" "abc" = .error "Failed to decrypt data" :=
  ⟨by decide,
   (decrypt_invalid_format_amended demoCipher "key" "abc" (by decide)).1,
   (decrypt_invalid_format_amended demoCipher "key" "abc" (by decide)).2⟩

/-! ## Storage claims -/

/-- C9: `getItem` returns absent (null) rather than raising when the stored
blob cannot be decrypted, and `getObject` returns absent (null) rather than
throwing a parse error when the stored payload is malformed JSON (a parse
throw is modelled as `parse jv = none`). -/
theorem storage_absent_on_failure :
    (∀ (C : AesCbcOps) (ckey key ev msg : String) (st : List (String × String)),
        assocLookup st ("medical_app_secure_" ++ key) = some ev →
        decrypt C ckey ev = .error msg →
        SecureStorage.getItem C ckey st key = none) ∧
    (∀ (α : Type) (parse : String → Option α) (C : AesCbcOps)
        (ckey key jv : String) (st : List (String × String)),
        SecureStorage.getItem C ckey st key = some jv →
        parse jv = none →
        SecureStorage.getObject parse C ckey st key = none) := by
  constructor
  · intro C ckey key ev msg st hlook hdec
    unfold SecureStorage.getItem
    rw [hlook]
    show (if ev = "" then none
          else match decrypt C ckey ev with
            | .ok v => some v
            | .error _ => none) = none
    by_cases hev : ev = ""
    · rw [if_pos hev]
    · rw [if_neg hev, hdec]
  · intro α parse C ckey key jv st hget hparse
    unfold SecureStorage.getObject
    rw [hget]
    show (if jv = "" then none
          else match parse jv with
            | some v => some v
            | none => none) = none
    by_cases hjv : jv = ""
    · rw [if_pos hjv]
    · rw [if_neg hjv, hparse]

/-- C9 witness: a blob that fails decryption reads as absent, and a stored
value that decrypts but does not parse reads as absent through getObject. -/
theorem storage_absent_on_failure_witness :
    assocLookup [("medical_app_secure_auth_token", "zz")]
        ("medical_app_secure_" ++ "auth_token") = some "zz" ∧
    decrypt demoCipher "k" "zz" = .error "Failed to decrypt data" ∧
    SecureStorage.getItem demoCipher "k"
        [("medical_app_secure_auth_token", "zz")] "auth_token" = none ∧
    SecureStorage.getItem demoCipher "k"
        [("medical_app_secure_user_data", encrypt demoCipher "k" (List.replicate 16 0) "nj")]
        "user_data" = some "nj" ∧
    SecureStorage.getObject (fun _ => (none : Option Nat)) demoCipher "k"
        [("medical_app_secure_user_data", encrypt demoCipher "k" (List.replicate 16 0) "nj")]
        "user_data" = none :=
  ⟨rfl, rfl,
   storage_absent_on_failure.1 demoCipher "k" "auth_token" "zz" "Failed to decrypt data"
     [("medical_app_secure_auth_token", "zz")] rfl rfl,
   by decide,
   storage_absent_on_failure.2 Nat (fun _ => none) demoCipher "k" "user_data" "nj"
     [("medical_app_secure_user_data", encrypt demoCipher "k" (List.replicate 16 0) "nj")]
     (by decide) rfl⟩

/-! ## maskSensitiveData (C10) -/

/-- C10 counterexample: at `visibleChars = 0` the claim fails. The input "a"
has length 1, which is not at most 0, so the claim requires an output of the
same length as the input; but `slice(-0)` is the whole string, and the code
returns one star followed by the whole input, of length 2. -/
theorem maskSensitiveData_counterexample :
    maskSensitiveData "a" 0 = "*a" ∧
    (maskSensitiveData "a" 0).length ≠ ("a" : String).length :=
  ⟨rfl, by decide⟩

/-- C10 amended: maskSensitiveData returns "" for an empty input and returns
the input unchanged whenever its length is at most visibleChars, for every
visibleChars; and, provided additionally that visibleChars is at least 1,
an input longer than visibleChars yields a string of the same length whose
last visibleChars characters are those of the input and whose leading
characters are all stars. (At visibleChars = 0 the code instead returns
length-many stars followed by the entire input, since JS slice(-0) is the
whole string.) -/
theorem maskSensitiveData_amended :
    (∀ n : Nat, maskSensitiveData "" n = "") ∧
    (∀ (v : String) (n : Nat), v.length ≤ n → maskSensitiveData v n = v) ∧
    (∀ (v : String) (n : Nat), 1 ≤ n → n < v.length →
        (maskSensitiveData v n).length = v.length ∧
        (maskSensitiveData v n).data.drop (v.length - n) = v.data.drop (v.length - n) ∧
        ∀ c ∈ (maskSensitiveData v n).data.take (v.length - n), c = '*') := by
  refine ⟨?_, ?_, ?_⟩
  · intro n
    rfl
  · intro v n hle
    unfold maskSensitiveData
    by_cases hv : v = ""
    · rw [if_pos hv, hv]
    · rw [if_neg hv, if_pos hle]
  · intro v n hn hlt
    have hv : v ≠ "" := by
      intro h
      rw [h] at hlt
      simp [String.length] at hlt
    have hnle : ¬ v.length ≤ n := by omega
    have hn0 : n ≠ 0 := by omega
    have hmask : maskSensitiveData v n =
        String.mk (List.replicate (v.length - n) '*') ++
          String.mk (v.data.drop (v.length - n)) := by
      unfold maskSensitiveData jsSliceNeg
      rw [if_neg hv, if_neg hnle, if_neg hn0]
    have hdata : (maskSensitiveData v n).data =
        List.replicate (v.length - n) '*' ++ v.data.drop (v.length - n) := by
      rw [hmask, String.data_append]
    have hvlen : v.length = v.data.length := rfl
    refine ⟨?_, ?_, ?_⟩
    · show (maskSensitiveData v n).data.length = v.length
      rw [hdata]
      simp only [List.length_append, List.length_replicate, List.length_drop]
      omega
    · have hrep : (List.replicate (v.length - n) '*').length = v.length - n :=
        List.length_replicate _ _
      have hdl := List.drop_left (List.replicate (v.length - n) '*')
        (v.data.drop (v.length - n))
      rw [hrep] at hdl
      rw [hdata, hdl]
    · intro c hc
      have hrep : (List.replicate (v.length - n) '*').length = v.length - n :=
        List.length_replicate _ _
      have htl := List.take_left (List.replicate (v.length - n) '*')
        (v.data.drop (v.length - n))
      rw [hrep] at htl
      rw [hdata, htl] at hc
      exact (List.mem_replicate.mp hc).2

/-- C10 amended witness: all three parts at concrete inputs. -/
theorem maskSensitiveData_amended_witness :
    maskSensitiveData "" 4 = "" ∧
    ("ab" : String).length ≤ 4 ∧ maskSensitiveData "ab" 4 = "ab" ∧
    1 ≤ 4 ∧ 4 < ("123456789" : String).length ∧
    (maskSensitiveData "123456789" 4).length = ("123456789" : String).length :=
  ⟨maskSensitiveData_amended.1 4, by decide,
   maskSensitiveData_amended.2.1 "ab" 4 (by decide), by decide, by decide,
   (maskSensitiveData_amended.2.2 "123456789" 4 (by decide) (by decide)).1⟩

/-! ## Request pipeline claims (C3, C4) -/

/-- C3: the compliance-header block never runs to completion. The request
interceptor's `config` parameter shadows the imported config module, so
`config.environment.version` reads `version` off an absent property of the
axios request config and throws a TypeError; the header is not attached, the
request is not dispatched, and the caller sees a CLIENT_ERROR normalization
of the TypeError. The intended value, `appConfigEnvironment.version`, is
`1.0.0`. -/
theorem compliance_header_shadowing (san : String → String) (tok uid : Option String)
    (cfg : ReqConfig) (hh : cfg.headers.isSome = true) (he : cfg.environment = none) :
    requestInterceptor true tok uid cfg =
      .error (.typeError "Cannot read properties of undefined (reading version)") ∧
    runPipeline san true tok uid cfg =
      .failedFast (handleApiError san (errOfJs
        (.typeError "Cannot read properties of undefined (reading version)") cfg._retry)) ∧
    (handleApiError san (errOfJs
        (.typeError "Cannot read properties of undefined (reading version)") cfg._retry)).code
      = "CLIENT_ERROR" ∧
    appConfigEnvironment.version = "1.0.0" := by
  obtain ⟨hdrs, env, retry⟩ := cfg
  subst he
  rcases Option.isSome_iff_exists.mp hh with ⟨hs, hhs⟩
  subst hhs
  have h1 : requestInterceptor true tok uid
      { headers := some hs, environment := none, _retry := retry } =
      .error (.typeError "Cannot read properties of undefined (reading version)") := by
    unfold requestInterceptor
    cases hjt : jsTruthyS tok <;> simp [hjt]
  refine ⟨h1, ?_, rfl, rfl⟩
  unfold runPipeline
  rw [h1]
  rfl

/-- C3 witness: the TypeError at a concrete connected request with default
headers, a stored token and a stored user id. -/
theorem compliance_header_shadowing_witness :
    ({ headers := some defaultHeaders, environment := none, _retry := false } :
        ReqConfig).headers.isSome = true ∧
    requestInterceptor true (some "tok") (some "u1")
        { headers := some defaultHeaders, environment := none, _retry := false } =
      .error (.typeError "Cannot read properties of undefined (reading version)") :=
  ⟨rfl, (compliance_header_shadowing sanitizeId (some "tok") (some "u1")
    { headers := some defaultHeaders, environment := none, _retry := false } rfl rfl).1⟩

/-- C4 counterexample: with no connectivity the request fails fast, but the
normalized error kind is CLIENT_ERROR, not NETWORK_ERROR as the claim states:
the interceptor rejects with a plain `Error`, and `handleApiError` maps a
non-axios Error instance to CLIENT_ERROR (error-handlers.ts:143-146). -/
theorem network_fail_fast_counterexample :
    runPipeline sanitizeId false none none
        { headers := some defaultHeaders, environment := none, _retry := false } =
      PipeOutcome.failedFast
        { status := 500, code := "CLIENT_ERROR",
          message := "No network connection available", errors := none } ∧
    ("CLIENT_ERROR" : String) ≠ "NETWORK_ERROR" :=
  ⟨rfl, by decide⟩

/-- C4 amended: for every request issued while network reachability is
absent, the client fails fast without dispatching the request and without
consuming the single retry attempt, and the caller receives the normalized
error of kind CLIENT_ERROR (status 500) carrying the message
`No network connection available` — not a NETWORK_ERROR-kind error, which
`handleApiError` reserves for axios errors with a request but no response. -/
theorem network_fail_fast_amended :
    (∀ (tok uid : Option String) (cfg : ReqConfig),
        requestInterceptor false tok uid cfg =
          .error (.plain "No network connection available")) ∧
    (∀ (san : String → String) (tok uid : Option String) (cfg : ReqConfig),
        runPipeline san false tok uid cfg =
          .failedFast (handleApiError san
            (errOfJs (.plain "No network connection available") cfg._retry))) ∧
    (∀ (san : String → String) (retry : Bool),
        (handleApiError san
            (errOfJs (.plain "No network connection available") retry)).code
          = "CLIENT_ERROR" ∧
        (handleApiError san
            (errOfJs (.plain "No network connection available") retry)).status = 500 ∧
        (handleApiError san
            (errOfJs (.plain "No network connection available") retry)).message
          = san "No network connection available") ∧
    (∀ (san : String → String) (e : ErrShape), e.respStatus = none →
        onRejected san e = .rejectNormalized (handleApiError san e)) := by
  refine ⟨?_, ?_, ?_, ?_⟩
  · intro tok uid cfg
    rfl
  · intro san tok uid cfg
    rfl
  · intro san retry
    exact ⟨rfl, rfl, rfl⟩
  · intro san e he
    unfold onRejected
    rw [if_neg]
    intro hcontra
    rw [he] at hcontra
    exact Option.noConfusion hcontra.1

/-- C4 amended witness: the conclusions at a concrete disconnected request,
and the no-retry-consumed conjunct at the concrete rejected error. -/
theorem network_fail_fast_amended_witness :
    requestInterceptor false none none
        { headers := some defaultHeaders, environment := none, _retry := false } =
      .error (.plain "No network connection available") ∧
    (handleApiError sanitizeId
        (errOfJs (.plain "No network connection available") false)).code = "CLIENT_ERROR" ∧
    (errOfJs (.plain "No network connection available") false).respStatus = none ∧
    onRejected sanitizeId (errOfJs (.plain "No network connection available") false) =
      .rejectNormalized (handleApiError sanitizeId
        (errOfJs (.plain "No network connection available") false)) :=
  ⟨network_fail_fast_amended.1 none none
     { headers := some defaultHeaders, environment := none, _retry := false },
   (network_fail_fast_amended.2.2.1 sanitizeId false).1, rfl,
   network_fail_fast_amended.2.2.2 sanitizeId
     (errOfJs (.plain "No network connection available") false) rfl⟩

/-! ## Replay-once claim (C2) -/

/-- C2 counterexample: a request whose `_retry` flag is set (it was already
replayed once after a successful refresh) receives a second 401 with an empty
response body. The 401 branch is skipped and the surfaced error is the
`handleApiError` normalization, whose code is UNKNOWN_ERROR — not the
distinguished AUTH_REQUIRED error object. -/
theorem replay_once_counterexample :
    onRejected sanitizeId
        { isAxiosError := true, response := some { status := 401, data := none },
          hasRequest := true, axiosCode := none, isErrorInstance := false,
          message := "Request failed with status code 401", configRetry := true,
          overrides := none } =
      RejOutcome.rejectNormalized
        { status := 401, code := "UNKNOWN_ERROR",
          message := "An unexpected error occurred while communicating with the server.",
          errors := none } ∧
    ("UNKNOWN_ERROR" : String) ≠ "AUTH_REQUIRED" ∧
    authRequiredError.code = "AUTH_REQUIRED" :=
  ⟨rfl, by decide, rfl⟩

/-- C2 amended: a request that receives a 401, refreshes and is replayed
carries `_retry = true` (set at api-client.ts:76 before the refresh), so a
second 401 on the replay does not re-enter the refresh branch — no second
refresh cycle is triggered. The error surfaced to the caller is the
`handleApiError` normalization of the second 401 (status 401, code taken
from the response body and UNKNOWN_ERROR when the body has none), not the
distinguished AUTH_REQUIRED object, which only the refresh-failure path
produces. -/
theorem replay_once_amended :
    (∀ (g : GState) (t : Thread), t.phase = Phase.ready →
        ((stepThread g t).2)._retry = true) ∧
    (∀ (san : String → String) (e : ErrShape),
        e.respStatus = some 401 → e.configRetry = true →
        onRejected san e = .rejectNormalized (handleApiError san e)) ∧
    (∀ (san : String → String) (msg : String) (hasReq retry : Bool)
        (axCode : Option String),
        (handleApiError san
            { isAxiosError := true, response := some { status := 401, data := none },
              hasRequest := hasReq, axiosCode := axCode, isErrorInstance := false,
              message := msg, configRetry := retry, overrides := none }).status = 401 ∧
        (handleApiError san
            { isAxiosError := true, response := some { status := 401, data := none },
              hasRequest := hasReq, axiosCode := axCode, isErrorInstance := false,
              message := msg, configRetry := retry, overrides := none }).code
          = "UNKNOWN_ERROR") := by
  refine ⟨?_, ?_, ?_⟩
  · intro g t h
    unfold stepThread
    rw [h]
    cases hgr : g.isRefreshingToken <;> simp [hgr]
  · intro san e h401 hretry
    unfold onRejected
    rw [if_neg]
    intro hcontra
    rw [hretry] at hcontra
    exact Bool.noConfusion hcontra.2
  · intro san msg hasReq retry axCode
    exact ⟨rfl, rfl⟩

/-- C2 amended witness: the retry flag set by the ready step at a concrete
state, the skip of the refresh branch at the concrete second-401 error, and
the normalization facts at concrete arguments. -/
theorem replay_once_amended_witness :
    initThread.phase = Phase.ready ∧
    ((stepThread initG initThread).2)._retry = true ∧
    onRejected sanitizeId
        { isAxiosError := true, response := some { status := 401, data := none },
          hasRequest := true, axiosCode := none, isErrorInstance := false,
          message := "m", configRetry := true, overrides := none } =
      .rejectNormalized (handleApiError sanitizeId
        { isAxiosError := true, response := some { status := 401, data := none },
          hasRequest := true, axiosCode := none, isErrorInstance := false,
          message := "m", configRetry := true, overrides := none }) ∧
    (handleApiError sanitizeId
        { isAxiosError := true, response := some { status := 401, data := none },
          hasRequest := true, axiosCode := none, isErrorInstance := false,
          message := "m", configRetry := true, overrides := none }).code
      = "UNKNOWN_ERROR" :=
  ⟨rfl, replay_once_amended.1 initG initThread rfl,
   replay_once_amended.2.1 sanitizeId
     { isAxiosError := true, response := some { status := 401, data := none },
       hasRequest := true, axiosCode := none, isErrorInstance := false,
       message := "m", configRetry := true, overrides := none } rfl rfl,
   (replay_once_amended.2.2 sanitizeId "m" true true none).2⟩

/-! ## Machine lemmas (C1, C5) -/

theorem mem_set_of_ne {α : Type} {x t t' : α} {ts : List α} {i : Nat}
    (hx : x ∈ ts) (hget : ts.get? i = some t) (hne : x ≠ t) : x ∈ ts.set i t' := by
  induction ts generalizing i with
  | nil => cases hx
  | cons a rest ih =>
      cases i with
      | zero =>
          have ha : a = t := by
            have : some a = some t := hget
            exact Option.some.inj this
          rcases List.mem_cons.mp hx with h | h
          · exact absurd (h.trans ha) hne
          · exact List.mem_cons_of_mem _ h
      | succ j =>
          rcases List.mem_cons.mp hx with h | h
          · rw [h]
            exact List.mem_cons_self _ _
          · exact List.mem_cons_of_mem _ (ih h hget)

theorem forall_mem_set {α : Type} {P : α → Prop} {ts : List α} {i : Nat} {t' : α}
    (hP : ∀ x ∈ ts, P x) (hP' : P t') : ∀ x ∈ ts.set i t', P x := by
  intro x hx
  rcases List.mem_or_eq_of_mem_set hx with h | h
  · exact hP x h
  · rw [h]
    exact hP'

theorem exists_mem_set_of_not {α : Type} {P : α → Prop} {ts : List α} {i : Nat}
    {t t' : α} (hget : ts.get? i = some t) (hex : ∃ x ∈ ts, P x) (hnt : ¬ P t) :
    ∃ x ∈ ts.set i t', P x := by
  obtain ⟨x, hx, hPx⟩ := hex
  exact ⟨x, mem_set_of_ne hx hget (fun he => hnt (he ▸ hPx)), hPx⟩

theorem noReady_spec {ts : List Thread} (h : noReady ts = true) :
    ∀ x ∈ ts, x.phase ≠ Phase.ready := by
  intro x hx
  have h2 := List.all_eq_true.mp h x hx
  exact bne_iff_ne.mp h2

theorem allDone_spec {ts : List Thread} (h : allDone ts = true) :
    ∀ x ∈ ts, isDone x.phase = true :=
  fun x hx => List.all_eq_true.mp h x hx

/-! ### stepThread equations -/

theorem stepThread_hasHeaders (g : GState) (t : Thread) :
    ((stepThread g t).2).hasHeaders = t.hasHeaders := by
  rcases t with ⟨hh, rt, ph⟩
  cases ph <;> simp only [stepThread] <;> (repeat' split) <;> rfl

theorem stepThread_ready_leader {g : GState} {t : Thread} (hph : t.phase = .ready)
    (hf : g.isRefreshingToken = false) :
    stepThread g t =
      ({ isRefreshingToken := true, tokenRefreshPromise := some g.nextPid,
         refreshCount := g.refreshCount + 1, nextPid := g.nextPid + 1,
         resolutions := g.resolutions, store := g.store },
       { hasHeaders := t.hasHeaders, _retry := true, phase := .leaderWait g.nextPid }) := by
  rcases t with ⟨hh, rt, ph⟩
  cases hph
  simp only [stepThread, hf]
  rfl

theorem stepThread_ready_follower {g : GState} {t : Thread} (hph : t.phase = .ready)
    (hf : g.isRefreshingToken = true) :
    stepThread g t =
      (g, { hasHeaders := t.hasHeaders, _retry := true,
            phase := .followerWait g.tokenRefreshPromise }) := by
  rcases t with ⟨hh, rt, ph⟩
  cases hph
  simp only [stepThread, hf]
  rfl

theorem stepThread_leader_blocked {g : GState} {t : Thread} {p : Nat}
    (hph : t.phase = .leaderWait p) (hlook : lookupRes g.resolutions p = none) :
    stepThread g t = (g, t) := by
  rcases t with ⟨hh, rt, ph⟩
  cases hph
  simp only [stepThread, hlook]

theorem stepThread_follower_blocked {g : GState} {t : Thread} {p : Nat}
    (hph : t.phase = .followerWait (some p)) (hlook : lookupRes g.resolutions p = none) :
    stepThread g t = (g, t) := by
  rcases t with ⟨hh, rt, ph⟩
  cases hph
  simp only [stepThread, hlook]

theorem stepThread_leader_ok {g : GState} {t : Thread} {p : Nat} {tok : String}
    (hph : t.phase = .leaderWait p)
    (hlook : lookupRes g.resolutions p = some (.ok tok)) :
    stepThread g t =
      ({ isRefreshingToken := false, tokenRefreshPromise := none,
         refreshCount := g.refreshCount, nextPid := g.nextPid,
         resolutions := g.resolutions, store := g.store },
       { hasHeaders := t.hasHeaders, _retry := t._retry, phase := .replayed tok }) := by
  rcases t with ⟨hh, rt, ph⟩
  cases hph
  simp only [stepThread, hlook]

theorem stepThread_leader_failed {g : GState} {t : Thread} {p : Nat}
    (hph : t.phase = .leaderWait p)
    (hlook : lookupRes g.resolutions p = some .failed) :
    stepThread g t =
      (g, { hasHeaders := t.hasHeaders, _retry := t._retry,
            phase := .deletingAuth }) := by
  rcases t with ⟨hh, rt, ph⟩
  cases hph
  simp only [stepThread, hlook]

theorem stepThread_follower_ok {g : GState} {t : Thread} {p : Nat} {tok : String}
    (hph : t.phase = .followerWait (some p))
    (hlook : lookupRes g.resolutions p = some (.ok tok))
    (htok : tok ≠ "") (hht : t.hasHeaders = true) :
    stepThread g t =
      ({ isRefreshingToken := false, tokenRefreshPromise := none,
         refreshCount := g.refreshCount, nextPid := g.nextPid,
         resolutions := g.resolutions, store := g.store },
       { hasHeaders := t.hasHeaders, _retry := t._retry, phase := .replayed tok }) := by
  rcases t with ⟨hh, rt, ph⟩
  cases hph
  simp only [stepThread, hlook]
  rw [if_pos ⟨htok, hht⟩]

theorem stepThread_follower_failed {g : GState} {t : Thread} {p : Nat}
    (hph : t.phase = .followerWait (some p))
    (hlook : lookupRes g.resolutions p = some .failed) :
    stepThread g t =
      (g, { hasHeaders := t.hasHeaders, _retry := t._retry,
            phase := .deletingAuth }) := by
  rcases t with ⟨hh, rt, ph⟩
  cases hph
  simp only [stepThread, hlook]

theorem stepThread_deletingAuth {g : GState} {t : Thread}
    (hph : t.phase = .deletingAuth) :
    stepThread g t =
      ({ isRefreshingToken := g.isRefreshingToken,
         tokenRefreshPromise := g.tokenRefreshPromise,
         refreshCount := g.refreshCount, nextPid := g.nextPid,
         resolutions := g.resolutions,
         store := { auth := false, refresh := g.store.refresh } },
       { hasHeaders := t.hasHeaders, _retry := t._retry,
         phase := .deletingRefresh }) := by
  rcases t with ⟨hh, rt, ph⟩
  cases hph
  rfl

theorem stepThread_deletingRefresh {g : GState} {t : Thread}
    (hph : t.phase = .deletingRefresh) :
    stepThread g t =
      ({ isRefreshingToken := false, tokenRefreshPromise := none,
         refreshCount := g.refreshCount, nextPid := g.nextPid,
         resolutions := g.resolutions,
         store := { auth := g.store.auth, refresh := false } },
       { hasHeaders := t.hasHeaders, _retry := t._retry,
         phase := .authRequired }) := by
  rcases t with ⟨hh, rt, ph⟩
  cases hph
  rfl

theorem stepThread_replayed {g : GState} {t : Thread} {tok : String}
    (hph : t.phase = .replayed tok) : stepThread g t = (g, t) := by
  rcases t with ⟨hh, rt, ph⟩
  cases hph
  rfl

theorem stepThread_authRequired {g : GState} {t : Thread}
    (hph : t.phase = .authRequired) : stepThread g t = (g, t) := by
  rcases t with ⟨hh, rt, ph⟩
  cases hph
  rfl

/-! ### step equations -/

theorem step_run_none {s : ClientState} {i : Nat} (hget : s.threads.get? i = none) :
    step s (.run i) = s := by
  simp only [step]
  rw [hget]

theorem step_run_eq {s : ClientState} {i : Nat} {t : Thread}
    (hget : s.threads.get? i = some t) :
    step s (.run i) =
      { g := (stepThread s.g t).1, threads := s.threads.set i (stepThread s.g t).2 } := by
  simp only [step]
  rw [hget]

theorem step_resolve_ok {s : ClientState} {p : Nat} {tok : String}
    (hcond : p < s.g.nextPid ∧ lookupRes s.g.resolutions p = none) :
    step s (.resolve p (.ok tok)) =
      { g := { isRefreshingToken := s.g.isRefreshingToken,
               tokenRefreshPromise := s.g.tokenRefreshPromise,
               refreshCount := s.g.refreshCount, nextPid := s.g.nextPid,
               resolutions := (p, .ok tok) :: s.g.resolutions,
               store := { auth := true, refresh := s.g.store.refresh } },
        threads := s.threads } := by
  simp only [step]
  rw [if_pos hcond]

theorem step_resolve_failed {s : ClientState} {p : Nat}
    (hcond : p < s.g.nextPid ∧ lookupRes s.g.resolutions p = none) :
    step s (.resolve p .failed) =
      { g := { isRefreshingToken := s.g.isRefreshingToken,
               tokenRefreshPromise := s.g.tokenRefreshPromise,
               refreshCount := s.g.refreshCount, nextPid := s.g.nextPid,
               resolutions := (p, .failed) :: s.g.resolutions,
               store := s.g.store },
        threads := s.threads } := by
  simp only [step]
  rw [if_pos hcond]

theorem step_resolve_none {s : ClientState} {p : Nat} {r : RefreshResult}
    (h : ¬(p < s.g.nextPid ∧ lookupRes s.g.resolutions p = none)) :
    step s (.resolve p r) = s := by
  simp only [step]
  rw [if_neg h]

theorem mem_set_self {α : Type} {ts : List α} {i : Nat} {t : α}
    (hget : ts.get? i = some t) (t' : α) : t' ∈ ts.set i t' := by
  induction ts generalizing i with
  | nil => exact Option.noConfusion hget
  | cons a rest ih =>
      cases i with
      | zero => exact List.mem_cons_self _ _
      | succ j => exact List.mem_cons_of_mem _ (ih hget)

/-- Running a blocked or finished thread leaves the state invariant: writing
the same thread value back preserves Inv. -/
theorem inv_set_self {n : Nat} {s : ClientState} {i : Nat} {t : Thread}
    (hget : s.threads.get? i = some t) (hInv : Inv n s) :
    Inv n { g := s.g, threads := s.threads.set i t } := by
  obtain ⟨hlen, hhdr, hstage⟩ := hInv
  have htmem : t ∈ s.threads := List.get?_mem hget
  refine ⟨?_, ?_, ?_⟩
  · rw [List.length_set]
    exact hlen
  · exact forall_mem_set hhdr (hhdr t htmem)
  · have hexidem : ∀ (P : Thread → Prop), (∃ x ∈ s.threads.set i t, P x) →
        ∃ x ∈ s.threads, P x := by
      intro P hex
      obtain ⟨x, hx, hPx⟩ := hex
      rcases List.mem_or_eq_of_mem_set hx with h | h
      · exact ⟨x, h, hPx⟩
      · exact ⟨t, htmem, h ▸ hPx⟩
    rcases hstage with h0 | h1 | ⟨tok, htokne, h2⟩ | h3
    · obtain ⟨hf, hp, hc, hn, hr, hsa, hsr, hth⟩ := h0
      exact Or.inl ⟨hf, hp, hc, hn, hr, hsa, hsr,
        forall_mem_set hth (hth t htmem)⟩
    · obtain ⟨hf, hp, hc, hn, hr, hsa, hsr, hth⟩ := h1
      exact Or.inr (Or.inl ⟨hf, hp, hc, hn, hr, hsa, hsr,
        forall_mem_set hth (hth t htmem)⟩)
    · obtain ⟨hc, hn, hr, hsa, hsr, hth⟩ := h2
      exact Or.inr (Or.inr (Or.inl ⟨tok, htokne, hc, hn, hr, hsa, hsr,
        forall_mem_set hth (hth t htmem)⟩))
    · obtain ⟨hc, hn, hr, hth, hdel1, hdel2⟩ := h3
      refine Or.inr (Or.inr (Or.inr ⟨hc, hn, hr,
        forall_mem_set hth (hth t htmem), ?_, ?_⟩))
      · intro hex
        exact hdel1 (hexidem _ hex)
      · intro hex
        exact hdel2 (hexidem _ hex)

/-- Preservation of the invariant by one thread segment. -/
theorem inv_step_run {n : Nat} {s : ClientState} (i : Nat) (hInv : Inv n s) :
    Inv n (step s (Action.run i)) := by
  cases hget : s.threads.get? i with
  | none =>
      rw [step_run_none hget]
      exact hInv
  | some t =>
      obtain ⟨hlen, hhdr, hstage⟩ := hInv
      have htmem : t ∈ s.threads := List.get?_mem hget
      have hht : t.hasHeaders = true := hhdr t htmem
      rw [step_run_eq hget]
      rcases hstage with h0 | h1 | ⟨tok, htokne, h2⟩ | h3
      -- Stage0: the first handler prologue makes its thread the leader
      · obtain ⟨hf, hp, hc, hn, hr, hsa, hsr, hth⟩ := h0
        have hph := hth t htmem
        rw [stepThread_ready_leader hph hf]
        refine ⟨by rw [List.length_set]; exact hlen,
          forall_mem_set hhdr hht, Or.inr (Or.inl ?_)⟩
        refine ⟨rfl, by rw [hn], by rw [hc], by rw [hn], hr, hsa, hsr, ?_⟩
        refine forall_mem_set (fun x hx => Or.inl (hth x hx)) ?_
        exact Or.inr (Or.inl (by rw [hn]))
      -- Stage1
      · obtain ⟨hf, hp, hc, hn, hr, hsa, hsr, hth⟩ := h1
        rcases hth t htmem with hph | hph | hph
        · -- ready thread joins as follower
          rw [stepThread_ready_follower hph hf]
          refine ⟨by rw [List.length_set]; exact hlen,
            forall_mem_set hhdr hht, Or.inr (Or.inl ?_)⟩
          refine ⟨hf, hp, hc, hn, hr, hsa, hsr, ?_⟩
          refine forall_mem_set hth ?_
          exact Or.inr (Or.inr (by rw [hp]))
        · -- leader blocked on the unsettled promise
          have hlook : lookupRes s.g.resolutions 0 = none := by rw [hr]; rfl
          rw [stepThread_leader_blocked hph hlook]
          exact inv_set_self hget ⟨hlen, hhdr, Or.inr (Or.inl
            ⟨hf, hp, hc, hn, hr, hsa, hsr, hth⟩)⟩
        · -- follower blocked on the unsettled promise
          have hlook : lookupRes s.g.resolutions 0 = none := by rw [hr]; rfl
          rw [stepThread_follower_blocked hph hlook]
          exact inv_set_self hget ⟨hlen, hhdr, Or.inr (Or.inl
            ⟨hf, hp, hc, hn, hr, hsa, hsr, hth⟩)⟩
      -- Stage2ok: resumptions replay with the single token
      · obtain ⟨hc, hn, hr, hsa, hsr, hth⟩ := h2
        have hlook : lookupRes s.g.resolutions 0 = some (.ok tok) := by rw [hr]; rfl
        rcases hth t htmem with hph | hph | hph
        · rw [stepThread_leader_ok hph hlook]
          refine ⟨by rw [List.length_set]; exact hlen,
            forall_mem_set hhdr hht, Or.inr (Or.inr (Or.inl
              ⟨tok, htokne, hc, hn, hr, hsa, hsr, ?_⟩))⟩
          refine forall_mem_set hth ?_
          exact Or.inr (Or.inr rfl)
        · rw [stepThread_follower_ok hph hlook htokne hht]
          refine ⟨by rw [List.length_set]; exact hlen,
            forall_mem_set hhdr hht, Or.inr (Or.inr (Or.inl
              ⟨tok, htokne, hc, hn, hr, hsa, hsr, ?_⟩))⟩
          refine forall_mem_set hth ?_
          exact Or.inr (Or.inr rfl)
        · rw [stepThread_replayed hph]
          exact inv_set_self hget ⟨hlen, hhdr, Or.inr (Or.inr (Or.inl
            ⟨tok, htokne, hc, hn, hr, hsa, hsr, hth⟩))⟩
      -- Stage2err: resumptions walk the catch clause
      · obtain ⟨hc, hn, hr, hth, hdel1, hdel2⟩ := h3
        have hlook : lookupRes s.g.resolutions 0 = some .failed := by rw [hr]; rfl
        rcases hth t htmem with hph | hph | hph | hph | hph
        · -- leader resumes into the catch clause
          rw [stepThread_leader_failed hph hlook]
          refine ⟨by rw [List.length_set]; exact hlen,
            forall_mem_set hhdr hht, Or.inr (Or.inr (Or.inr
              ⟨hc, hn, hr, ?_, ?_, ?_⟩))⟩
          · refine forall_mem_set hth ?_
            exact Or.inr (Or.inr (Or.inl rfl))
          · intro hex
            refine hdel1 ?_
            obtain ⟨x, hx, hPx⟩ := hex
            rcases List.mem_or_eq_of_mem_set hx with h | h
            · exact ⟨x, h, hPx⟩
            · rw [h] at hPx
              rcases hPx with hco | hco <;> exact Phase.noConfusion hco
          · intro hex
            refine hdel2 ?_
            obtain ⟨x, hx, hPx⟩ := hex
            rcases List.mem_or_eq_of_mem_set hx with h | h
            · exact ⟨x, h, hPx⟩
            · rw [h] at hPx
              exact Phase.noConfusion hPx
        · -- follower resumes into the catch clause
          rw [stepThread_follower_failed hph hlook]
          refine ⟨by rw [List.length_set]; exact hlen,
            forall_mem_set hhdr hht, Or.inr (Or.inr (Or.inr
              ⟨hc, hn, hr, ?_, ?_, ?_⟩))⟩
          · refine forall_mem_set hth ?_
            exact Or.inr (Or.inr (Or.inl rfl))
          · intro hex
            refine hdel1 ?_
            obtain ⟨x, hx, hPx⟩ := hex
            rcases List.mem_or_eq_of_mem_set hx with h | h
            · exact ⟨x, h, hPx⟩
            · rw [h] at hPx
              rcases hPx with hco | hco <;> exact Phase.noConfusion hco
          · intro hex
            refine hdel2 ?_
            obtain ⟨x, hx, hPx⟩ := hex
            rcases List.mem_or_eq_of_mem_set hx with h | h
            · exact ⟨x, h, hPx⟩
            · rw [h] at hPx
              exact Phase.noConfusion hPx
        · -- first deletion completes: auth token removed
          rw [stepThread_deletingAuth hph]
          refine ⟨by rw [List.length_set]; exact hlen,
            forall_mem_set hhdr hht, Or.inr (Or.inr (Or.inr
              ⟨hc, hn, hr, ?_, ?_, ?_⟩))⟩
          · refine forall_mem_set hth ?_
            exact Or.inr (Or.inr (Or.inr (Or.inl rfl)))
          · intro _
            rfl
          · intro hex
            refine hdel2 ?_
            obtain ⟨x, hx, hPx⟩ := hex
            rcases List.mem_or_eq_of_mem_set hx with h | h
            · exact ⟨x, h, hPx⟩
            · rw [h] at hPx
              exact Phase.noConfusion hPx
        · -- second deletion completes: refresh token removed, flags cleared
          rw [stepThread_deletingRefresh hph]
          have hauth : s.g.store.auth = false :=
            hdel1 ⟨t, htmem, Or.inl hph⟩
          refine ⟨by rw [List.length_set]; exact hlen,
            forall_mem_set hhdr hht, Or.inr (Or.inr (Or.inr
              ⟨hc, hn, hr, ?_, ?_, ?_⟩))⟩
          · refine forall_mem_set hth ?_
            exact Or.inr (Or.inr (Or.inr (Or.inr rfl)))
          · intro _
            exact hauth
          · intro _
            exact ⟨rfl, rfl, rfl⟩
        · -- finished thread
          rw [stepThread_authRequired hph]
          exact inv_set_self hget ⟨hlen, hhdr, Or.inr (Or.inr (Or.inr
            ⟨hc, hn, hr, hth, hdel1, hdel2⟩))⟩

/-- Preservation of the invariant by a promise resolution, provided no
thread is still in its 401 prologue (the good-schedule condition) and
successful resolutions carry nonempty tokens. -/
theorem inv_step_resolve {n : Nat} {s : ClientState} (p : Nat) (r : RefreshResult)
    (hInv : Inv n s) (hnr : noReady s.threads = true)
    (htok : ∀ tok, r = RefreshResult.ok tok → tok ≠ "") :
    Inv n (step s (Action.resolve p r)) := by
  obtain ⟨hlen, hhdr, hstage⟩ := hInv
  rcases hstage with h0 | h1 | ⟨tok, htokne, h2⟩ | h3
  · -- Stage0: no promise exists yet, the guard fails
    obtain ⟨hf, hp, hc, hn, hr, hsa, hsr, hth⟩ := h0
    rw [step_resolve_none (by
      intro hcontra
      rw [hn] at hcontra
      exact Nat.not_lt_zero p hcontra.1)]
    exact ⟨hlen, hhdr, Or.inl ⟨hf, hp, hc, hn, hr, hsa, hsr, hth⟩⟩
  · -- Stage1: promise 0 settles
    obtain ⟨hf, hp, hc, hn, hr, hsa, hsr, hth⟩ := h1
    by_cases hp0 : p = 0
    · subst hp0
      have hcond : 0 < s.g.nextPid ∧ lookupRes s.g.resolutions 0 = none := by
        constructor
        · rw [hn]
          exact Nat.zero_lt_one
        · rw [hr]
          rfl
      have hready := noReady_spec hnr
      have hth2 : ∀ x ∈ s.threads,
          x.phase = Phase.leaderWait 0 ∨ x.phase = Phase.followerWait (some 0) := by
        intro x hx
        rcases hth x hx with h | h | h
        · exact absurd h (hready x hx)
        · exact Or.inl h
        · exact Or.inr h
      cases r with
      | ok tok2 =>
          have htokne2 : tok2 ≠ "" := htok tok2 rfl
          rw [step_resolve_ok hcond]
          refine ⟨hlen, hhdr, Or.inr (Or.inr (Or.inl
            ⟨tok2, htokne2, hc, hn, by rw [hr], rfl, hsr, ?_⟩))⟩
          intro x hx
          rcases hth2 x hx with h | h
          · exact Or.inl h
          · exact Or.inr (Or.inl h)
      | failed =>
          rw [step_resolve_failed hcond]
          refine ⟨hlen, hhdr, Or.inr (Or.inr (Or.inr
            ⟨hc, hn, by rw [hr], ?_, ?_, ?_⟩))⟩
          · intro x hx
            rcases hth2 x hx with h | h
            · exact Or.inl h
            · exact Or.inr (Or.inl h)
          · intro hex
            obtain ⟨x, hx, hPx⟩ := hex
            rcases hth2 x hx with h | h <;> rw [h] at hPx <;>
              rcases hPx with hco | hco <;> exact Phase.noConfusion hco
          · intro hex
            obtain ⟨x, hx, hPx⟩ := hex
            rcases hth2 x hx with h | h <;> rw [h] at hPx <;>
              exact Phase.noConfusion hPx
    · -- only promise 0 exists
      rw [step_resolve_none (by
        intro hcontra
        rw [hn] at hcontra
        exact hp0 (Nat.lt_one_iff.mp hcontra.1))]
      exact ⟨hlen, hhdr, Or.inr (Or.inl ⟨hf, hp, hc, hn, hr, hsa, hsr, hth⟩)⟩
  · -- Stage2ok: promise 0 already settled, the guard fails
    obtain ⟨hc, hn, hr, hsa, hsr, hth⟩ := h2
    rw [step_resolve_none (by
      intro hcontra
      obtain ⟨hlt, hlook⟩ := hcontra
      rw [hn] at hlt
      have hp0 : p = 0 := Nat.lt_one_iff.mp hlt
      subst hp0
      rw [hr] at hlook
      exact Option.noConfusion hlook)]
    exact ⟨hlen, hhdr, Or.inr (Or.inr (Or.inl
      ⟨tok, htokne, hc, hn, hr, hsa, hsr, hth⟩))⟩
  · -- Stage2err: promise 0 already settled, the guard fails
    obtain ⟨hc, hn, hr, hth, hdel1, hdel2⟩ := h3
    rw [step_resolve_none (by
      intro hcontra
      obtain ⟨hlt, hlook⟩ := hcontra
      rw [hn] at hlt
      have hp0 : p = 0 := Nat.lt_one_iff.mp hlt
      subst hp0
      rw [hr] at hlook
      exact Option.noConfusion hlook)]
    exact ⟨hlen, hhdr, Or.inr (Or.inr (Or.inr ⟨hc, hn, hr, hth, hdel1, hdel2⟩))⟩

/-- The invariant holds along every good schedule. -/
theorem inv_exec {n : Nat} (s : ClientState) (sched : List Action) (hInv : Inv n s)
    (hg : goodSched s sched = true) (ht : tokensNonempty sched = true) :
    Inv n (exec s sched) := by
  induction sched generalizing s with
  | nil => exact hInv
  | cons a rest ih =>
      cases a with
      | run i =>
          have hg' : goodSched (step s (Action.run i)) rest = true := hg
          have ht' : tokensNonempty rest = true := by
            cases rest with
            | nil => rfl
            | cons b rest2 => exact ht
          exact ih _ (inv_step_run i hInv) hg' ht'
      | resolve p r =>
          have hg2 : (noReady s.threads && goodSched (step s (Action.resolve p r)) rest)
              = true := hg
          rw [Bool.and_eq_true] at hg2
          obtain ⟨hnr, hg'⟩ := hg2
          cases r with
          | ok tok =>
              have ht2 : ((tok != "") && tokensNonempty rest) = true := ht
              rw [Bool.and_eq_true] at ht2
              have htokne : tok ≠ "" := bne_iff_ne.mp ht2.1
              have ht' := ht2.2
              exact ih _ (inv_step_resolve p _ hInv hnr
                (fun tok2 he => by
                  cases he
                  exact htokne)) hg' ht'
          | failed =>
              have ht' : tokensNonempty rest = true := ht
              exact ih _ (inv_step_resolve p _ hInv hnr
                (fun tok2 he => RefreshResult.noConfusion he)) hg' ht'

/-- The initial state satisfies the invariant. -/
theorem inv_init (n : Nat) : Inv n (initState n) := by
  refine ⟨List.length_replicate n initThread, ?_, Or.inl
    ⟨rfl, rfl, rfl, rfl, rfl, rfl, rfl, ?_⟩⟩
  · intro x hx
    rw [List.eq_of_mem_replicate hx]
    rfl
  · intro x hx
    rw [List.eq_of_mem_replicate hx]
    rfl

/-- What a finished run looks like: exactly one refresh happened, and every
thread followed its outcome. -/
theorem final_of_inv {n : Nat} {s : ClientState} (hn : 1 ≤ n) (hInv : Inv n s)
    (hdone : allDone s.threads = true) :
    s.g.refreshCount = 1 ∧
    ((∃ tok, tok ≠ "" ∧ lookupRes s.g.resolutions 0 = some (RefreshResult.ok tok) ∧
        ∀ t ∈ s.threads, t.phase = Phase.replayed tok) ∨
     (lookupRes s.g.resolutions 0 = some RefreshResult.failed ∧
        s.g.store.auth = false ∧ s.g.store.refresh = false ∧
        s.g.isRefreshingToken = false ∧ s.g.tokenRefreshPromise = none ∧
        ∀ t ∈ s.threads, t.phase = Phase.authRequired)) := by
  obtain ⟨hlen, hhdr, hstage⟩ := hInv
  have hne : s.threads ≠ [] := by
    intro h
    rw [h] at hlen
    simp at hlen
    omega
  obtain ⟨t0, ht0⟩ := List.exists_mem_of_ne_nil s.threads hne
  have hdone2 := allDone_spec hdone
  rcases hstage with h0 | h1 | ⟨tok, htokne, h2⟩ | h3
  · obtain ⟨_, _, _, _, _, _, _, hth⟩ := h0
    have := hdone2 t0 ht0
    rw [hth t0 ht0] at this
    exact Bool.noConfusion this
  · obtain ⟨_, _, _, _, _, _, _, hth⟩ := h1
    have hd := hdone2 t0 ht0
    rcases hth t0 ht0 with h | h | h <;> rw [h] at hd <;> exact Bool.noConfusion hd
  · obtain ⟨hc, hn2, hr, hsa, hsr, hth⟩ := h2
    refine ⟨hc, Or.inl ⟨tok, htokne, by rw [hr]; rfl, ?_⟩⟩
    intro t ht
    have hd := hdone2 t ht
    rcases hth t ht with h | h | h
    · rw [h] at hd
      exact Bool.noConfusion hd
    · rw [h] at hd
      exact Bool.noConfusion hd
    · exact h
  · obtain ⟨hc, hn2, hr, hth, hdel1, hdel2⟩ := h3
    have hall : ∀ t ∈ s.threads, t.phase = Phase.authRequired := by
      intro t ht
      have hd := hdone2 t ht
      rcases hth t ht with h | h | h | h | h <;>
        first
          | (rw [h] at hd; exact Bool.noConfusion hd)
          | exact h
    have hex : ∃ x ∈ s.threads, x.phase = Phase.authRequired :=
      ⟨t0, ht0, hall t0 ht0⟩
    obtain ⟨hsr2, hf2, hp2⟩ := hdel2 hex
    have hsa2 : s.g.store.auth = false :=
      hdel1 ⟨t0, ht0, Or.inr (hall t0 ht0)⟩
    exact ⟨hc, Or.inr ⟨by rw [hr]; rfl, hsa2, hsr2, hf2, hp2, hall⟩⟩

/-- C1: single-flight refresh. First conjunct: a request whose 401 handler
runs while a refresh is outstanding (the flag is set) does not invoke
refreshToken — it joins as a follower. Second conjunct: for every N at least
2 concurrent requests that each receive a 401 while holding the same stale
token (every schedule in which all handlers run before the refresh settles),
once all requests finish, exactly one refreshToken call was made, and every
request resolved using that single refresh's result: all replayed with its
token on success, or all rejected with the auth-required error on failure. -/
theorem single_flight_refresh :
    (∀ (g : GState) (t : Thread), t.phase = Phase.ready →
        g.isRefreshingToken = true →
        (stepThread g t).1.refreshCount = g.refreshCount) ∧
    (∀ (n : Nat), 2 ≤ n → ∀ sched : List Action,
        goodSched (initState n) sched = true →
        tokensNonempty sched = true →
        allDone (exec (initState n) sched).threads = true →
        (exec (initState n) sched).g.refreshCount = 1 ∧
        ((∃ tok, tok ≠ "" ∧
            lookupRes (exec (initState n) sched).g.resolutions 0 =
              some (RefreshResult.ok tok) ∧
            ∀ t ∈ (exec (initState n) sched).threads,
              t.phase = Phase.replayed tok) ∨
         (lookupRes (exec (initState n) sched).g.resolutions 0 =
              some RefreshResult.failed ∧
            ∀ t ∈ (exec (initState n) sched).threads,
              t.phase = Phase.authRequired))) := by
  constructor
  · intro g t hph hf
    rw [stepThread_ready_follower hph hf]
  · intro n hn sched hg ht hdone
    have hInv := inv_exec (initState n) sched (inv_init n) hg ht
    have hfin := final_of_inv (by omega) hInv hdone
    refine ⟨hfin.1, ?_⟩
    rcases hfin.2 with ⟨tok, htokne, hlook, hth⟩ | ⟨hlook, _, _, _, _, hth⟩
    · exact Or.inl ⟨tok, htokne, hlook, hth⟩
    · exact Or.inr ⟨hlook, hth⟩

/-- C1 witness: two concurrent 401s under a concrete good schedule make
exactly one refresh call and both replay with its token. -/
theorem single_flight_refresh_witness :
    2 ≤ 2 ∧ goodSched (initState 2) demoSchedOk = true ∧
    tokensNonempty demoSchedOk = true ∧
    allDone (exec (initState 2) demoSchedOk).threads = true ∧
    (exec (initState 2) demoSchedOk).g.refreshCount = 1 :=
  ⟨by decide, by decide, by decide, by decide,
   (single_flight_refresh.2 2 (by decide) demoSchedOk (by decide) (by decide)
     (by decide)).1⟩

/-- C5: refresh-failure cascade and error purity. First conjunct: whenever
the refresh fails, at the end of the run both stored tokens (`auth_token`
and `refresh_token`) have been deleted, the refresh-in-progress flag and the
shared promise are cleared, and every participating request is rejected with
the auth-required error. Second conjunct: when the refresh succeeds, no
token is deleted. Third conjunct: every error outside the 401-refresh branch
is normalized by the pure `handleApiError` and rejected with no
credential-store operation. -/
theorem refresh_failure_cascade :
    (∀ (n : Nat), 1 ≤ n → ∀ sched : List Action,
        goodSched (initState n) sched = true →
        tokensNonempty sched = true →
        allDone (exec (initState n) sched).threads = true →
        lookupRes (exec (initState n) sched).g.resolutions 0 =
          some RefreshResult.failed →
        (exec (initState n) sched).g.store.auth = false ∧
        (exec (initState n) sched).g.store.refresh = false ∧
        (exec (initState n) sched).g.isRefreshingToken = false ∧
        (exec (initState n) sched).g.tokenRefreshPromise = none ∧
        ∀ t ∈ (exec (initState n) sched).threads,
          t.phase = Phase.authRequired) ∧
    (∀ (n : Nat) (sched : List Action),
        goodSched (initState n) sched = true →
        tokensNonempty sched = true →
        ∀ tok, lookupRes (exec (initState n) sched).g.resolutions 0 =
          some (RefreshResult.ok tok) →
        (exec (initState n) sched).g.store.auth = true ∧
        (exec (initState n) sched).g.store.refresh = true) ∧
    (∀ (san : String → String) (e : ErrShape),
        ¬(e.respStatus = some 401 ∧ e.configRetry = false) →
        onRejected san e = .rejectNormalized (handleApiError san e)) := by
  refine ⟨?_, ?_, ?_⟩
  · intro n hn sched hg ht hdone hfail
    have hInv := inv_exec (initState n) sched (inv_init n) hg ht
    have hfin := final_of_inv hn hInv hdone
    rcases hfin.2 with ⟨tok, _, hlook, _⟩ | ⟨_, hsa, hsr, hf, hp, hth⟩
    · rw [hfail] at hlook
      exact absurd (Option.some.inj hlook) (fun hh => RefreshResult.noConfusion hh)
    · exact ⟨hsa, hsr, hf, hp, hth⟩
  · intro n sched hg ht tok hok
    have hInv := inv_exec (initState n) sched (inv_init n) hg ht
    obtain ⟨_, _, hstage⟩ := hInv
    rcases hstage with h0 | h1 | ⟨tok2, _, h2⟩ | h3
    · rw [h0.2.2.2.2.1] at hok
      exact Option.noConfusion hok
    · rw [h1.2.2.2.2.1] at hok
      exact Option.noConfusion hok
    · exact ⟨h2.2.2.2.1, h2.2.2.2.2.1⟩
    · rw [h3.2.2.1] at hok
      exact absurd (Option.some.inj hok) (fun hh => RefreshResult.noConfusion hh)
  · intro san e hne
    unfold onRejected
    rw [if_neg hne]

/-- C5 witness: the failure cascade under a concrete schedule, and the
non-401 purity at the concrete network error. -/
theorem refresh_failure_cascade_witness :
    goodSched (initState 2) demoSchedFail = true ∧
    tokensNonempty demoSchedFail = true ∧
    allDone (exec (initState 2) demoSchedFail).threads = true ∧
    lookupRes (exec (initState 2) demoSchedFail).g.resolutions 0 =
      some RefreshResult.failed ∧
    (exec (initState 2) demoSchedFail).g.store.auth = false ∧
    (exec (initState 2) demoSchedFail).g.store.refresh = false ∧
    onRejected sanitizeId (errOfJs (.plain "x") false) =
      .rejectNormalized (handleApiError sanitizeId (errOfJs (.plain "x") false)) := by
  have h1 := refresh_failure_cascade.1 2 (by decide) demoSchedFail (by decide)
    (by decide) (by decide) (by decide)
  exact ⟨by decide, by decide, by decide, by decide, h1.1, h1.2.1,
    refresh_failure_cascade.2.2 sanitizeId (errOfJs (.plain "x") false)
      (by intro hco; exact Option.noConfusion hco.1)⟩

end HealthcareSpec
